import Mathlib

/-!
Verification of the INA226 current/power-monitor driver (Go package `ina226`).

The driver talks to the sensor over an I2C bus: every register access writes a
one-byte register address, optionally followed by a 16-bit payload as two
big-endian bytes; reads fetch two bytes back.  The embedding below models

* `float64` arithmetic by exact rational arithmetic (`ℚ`);
  `math.Floor(math.Log10 x)` is `Int.log 10 x`, Go's `uint16(f)` conversion is
  truncation toward zero (out-of-range values, implementation-defined in Go,
  are reduced mod 2^16 and clamped at 0 from below);
* the I2C device by a response script (one entry consumed per bus
  transaction, success with data or failure) together with a log of the bus
  operations issued, so that error propagation and the exact byte traffic can
  be stated;
* Go's `(value, error)` returns by `Except`.
-/

namespace INA226

/-! ### Register address map (source lines 31–42) -/

def CONFIG_REG : ℕ := 0x00

def SHUNTVOLTAGE_REG : ℕ := 0x01

def BUSVOLTAGE_REG : ℕ := 0x02

def POWER_REG : ℕ := 0x03

def CURRENT_REG : ℕ := 0x04

def CALIBRATION_REG : ℕ := 0x05

def MASKENABLE_REG : ℕ := 0x06

def ALERTLIMIT_REG : ℕ := 0x07

def MANUFACTURERID_REG : ℕ := 0xFE

def DIEID_REG : ℕ := 0xFF

/-! ### Configuration register helper constants (source lines 52–95)

Bit layout: RST = bit 15, AVG = bits 11–9, VBUSCT = bits 8–6,
VSHCT = bits 5–3, MODE = bits 2–0. -/

def INA226_MODE_POWER_DOWN : ℕ := 0x00

def INA226_MODE_SHUNT_TRIG : ℕ := 0x01

def INA226_MODE_BUS_TRIG : ℕ := 0x02

def INA226_MODE_SHUNT_BUS_TRIG : ℕ := 0x03

def INA226_MODE_ADC_OFF : ℕ := 0x04

def INA226_MODE_SHUNT_CONT : ℕ := 0x05

def INA226_MODE_BUS_CONT : ℕ := 0x06

def INA226_MODE_SHUNT_BUS_CONT : ℕ := 0x07

def INA226_SHUNT_CONV_TIME_140US : ℕ := 0x00 <<< 3

def INA226_SHUNT_CONV_TIME_204US : ℕ := 0x01 <<< 3

def INA226_SHUNT_CONV_TIME_332US : ℕ := 0x02 <<< 3

def INA226_SHUNT_CONV_TIME_588US : ℕ := 0x03 <<< 3

def INA226_SHUNT_CONV_TIME_1100US : ℕ := 0x04 <<< 3

def INA226_SHUNT_CONV_TIME_2116US : ℕ := 0x05 <<< 3

def INA226_SHUNT_CONV_TIME_4156US : ℕ := 0x06 <<< 3

def INA226_SHUNT_CONV_TIME_8244US : ℕ := 0x07 <<< 3

def INA226_BUS_CONV_TIME_140US : ℕ := 0x00 <<< 6

def INA226_BUS_CONV_TIME_204US : ℕ := 0x01 <<< 6

def INA226_BUS_CONV_TIME_332US : ℕ := 0x02 <<< 6

def INA226_BUS_CONV_TIME_588US : ℕ := 0x03 <<< 6

def INA226_BUS_CONV_TIME_1100US : ℕ := 0x04 <<< 6

def INA226_BUS_CONV_TIME_2116US : ℕ := 0x05 <<< 6

def INA226_BUS_CONV_TIME_4156US : ℕ := 0x06 <<< 6

def INA226_BUS_CONV_TIME_8244US : ℕ := 0x07 <<< 6

def INA226_AVERAGES_1 : ℕ := 0x00 <<< 9

def INA226_AVERAGES_4 : ℕ := 0x01 <<< 9

def INA226_AVERAGES_16 : ℕ := 0x02 <<< 9

def INA226_AVERAGES_64 : ℕ := 0x03 <<< 9

def INA226_AVERAGES_128 : ℕ := 0x04 <<< 9

def INA226_AVERAGES_256 : ℕ := 0x05 <<< 9

def INA226_AVERAGES_512 : ℕ := 0x06 <<< 9

def INA226_AVERAGES_1024 : ℕ := 0x07 <<< 9

def INA226_RST : ℕ := 0x01 <<< 15

/-- The supported operating-mode constants. -/
def modeConsts : List ℕ :=
  [INA226_MODE_POWER_DOWN, INA226_MODE_SHUNT_TRIG, INA226_MODE_BUS_TRIG,
   INA226_MODE_SHUNT_BUS_TRIG, INA226_MODE_ADC_OFF, INA226_MODE_SHUNT_CONT,
   INA226_MODE_BUS_CONT, INA226_MODE_SHUNT_BUS_CONT]

/-- The supported shunt-voltage conversion-time constants. -/
def shuntConvConsts : List ℕ :=
  [INA226_SHUNT_CONV_TIME_140US, INA226_SHUNT_CONV_TIME_204US,
   INA226_SHUNT_CONV_TIME_332US, INA226_SHUNT_CONV_TIME_588US,
   INA226_SHUNT_CONV_TIME_1100US, INA226_SHUNT_CONV_TIME_2116US,
   INA226_SHUNT_CONV_TIME_4156US, INA226_SHUNT_CONV_TIME_8244US]

/-- The supported bus-voltage conversion-time constants. -/
def busConvConsts : List ℕ :=
  [INA226_BUS_CONV_TIME_140US, INA226_BUS_CONV_TIME_204US,
   INA226_BUS_CONV_TIME_332US, INA226_BUS_CONV_TIME_588US,
   INA226_BUS_CONV_TIME_1100US, INA226_BUS_CONV_TIME_2116US,
   INA226_BUS_CONV_TIME_4156US, INA226_BUS_CONV_TIME_8244US]

/-- The supported averaging-mode constants. -/
def avgConsts : List ℕ :=
  [INA226_AVERAGES_1, INA226_AVERAGES_4, INA226_AVERAGES_16, INA226_AVERAGES_64,
   INA226_AVERAGES_128, INA226_AVERAGES_256, INA226_AVERAGES_512,
   INA226_AVERAGES_1024]

/-- All operating-mode / conversion-time / averaging option constants accepted
by `Configure`. -/
def supportedConsts : List ℕ := modeConsts ++ shuntConvConsts ++ busConvConsts ++ avgConsts

/-! ### Bit-field projections of a configuration word -/

/-- Bits `shift .. shift+width-1` of `w`, as a `width`-bit number. -/
def fieldBits (shift width w : ℕ) : ℕ := w >>> shift &&& (2 ^ width - 1)

/-- MODE field, bits 2–0. -/
def modeBits (w : ℕ) : ℕ := fieldBits 0 3 w

/-- VSHCT field, bits 5–3. -/
def vshctBits (w : ℕ) : ℕ := fieldBits 3 3 w

/-- VBUSCT field, bits 8–6. -/
def vbusctBits (w : ℕ) : ℕ := fieldBits 6 3 w

/-- AVG field, bits 11–9. -/
def avgBits (w : ℕ) : ℕ := fieldBits 9 3 w

/-- RST field, bit 15. -/
def rstBits (w : ℕ) : ℕ := fieldBits 15 1 w

/-! ### Bus transport model

The i2c device collaborator is modelled by a script of responses, one per bus
transaction, plus a log of the operations the driver issued.  An exhausted
script behaves like a failing transport. -/

/-- One response of the bus transport: success (with the data bytes placed in
the caller's buffer, relevant for reads only) or failure. -/
inductive BusResp where
  | ok (bytes : List ℕ) : BusResp
  | err : BusResp
deriving DecidableEq

/-- A bus operation issued by the driver. -/
inductive BusOp where
  | write (bytes : List ℕ) : BusOp
  | read (count : ℕ) : BusOp
deriving DecidableEq

/-- Transport state: pending responses and the log of issued operations. -/
structure Bus where
  script : List BusResp
  log : List BusOp
deriving DecidableEq

/-- Driver error taxonomy: a propagated transport failure, or the
not-calibrated error built by `CurrentResolution` when `rShunt ≤ 0`. -/
inductive DriverErr where
  | transport : DriverErr
  | notCalibrated : DriverErr
deriving DecidableEq

/-- `device.Write(bytes)`: consumes one scripted response. -/
def devWrite (bytes : List ℕ) (b : Bus) : Except DriverErr Unit × Bus :=
  match b.script with
  | [] => (Except.error DriverErr.transport, ⟨[], b.log ++ [BusOp.write bytes]⟩)
  | BusResp.ok _ :: rest => (Except.ok (), ⟨rest, b.log ++ [BusOp.write bytes]⟩)
  | BusResp.err :: rest =>
      (Except.error DriverErr.transport, ⟨rest, b.log ++ [BusOp.write bytes]⟩)

/-- `device.Read(buf)` with `count = len(buf)`: consumes one scripted
response; the delivered data are bytes (reduced mod 256). -/
def devRead (count : ℕ) (b : Bus) : Except DriverErr (List ℕ) × Bus :=
  match b.script with
  | [] => (Except.error DriverErr.transport, ⟨[], b.log ++ [BusOp.read count]⟩)
  | BusResp.ok bytes :: rest =>
      (Except.ok (bytes.map (fun x => x % 256)), ⟨rest, b.log ++ [BusOp.read count]⟩)
  | BusResp.err :: rest =>
      (Except.error DriverErr.transport, ⟨rest, b.log ++ [BusOp.read count]⟩)

/-! ### The driver handle -/

/-- The `Ina226` struct: calibration variables (source lines 97–102).  The
device pointer is the separate `Bus` value threaded through each operation. -/
structure Ina226 where
  rShunt : ℚ
  iMax : ℚ
  vBusMax : ℚ
  vShuntMax : ℚ
deriving DecidableEq

/-- `New` (source lines 104–112): the Go struct's float fields start at 0. -/
def New : Ina226 := ⟨0, 0, 0, 0⟩

/-- `wordToByteArray` (source lines 114–119): big-endian split,
`buf[0] = byte(w >> 8)`, `buf[1] = byte(w)`. -/
def wordToByteArray (w : ℕ) : List ℕ := [w >>> 8 % 256, w % 256]

/-- `Configure` (source lines 121–136): bitwise-OR of the supplied option
words, written to the configuration register as address byte plus big-endian
payload. -/
def configWord (confs : List ℕ) : ℕ := confs.foldl (fun acc conf => acc ||| conf) 0

def Configure (confs : List ℕ) (b : Bus) : Except DriverErr Unit × Bus :=
  match devWrite (CONFIG_REG :: wordToByteArray (configWord confs)) b with
  | (Except.error e, b1) => (Except.error e, b1)
  | (Except.ok _, b1) => (Except.ok (), b1)

/-! ### Calibration arithmetic (source lines 138–164) -/

/-- `math.Floor(math.Log10 q)` for the exact-rational model: the unique `e`
with `10 ^ e ≤ q < 10 ^ (e + 1)` when `q > 0`. -/
def floorLog10 (q : ℚ) : ℤ := Int.log 10 q

/-- Go's `uint16(f)` conversion of a float: the fraction is discarded
(truncation toward zero).  Out-of-range values are implementation-defined in
Go; the model reduces them mod 2^16, with negative values clamped to 0. -/
def truncToZero (q : ℚ) : ℤ := if q < 0 then -⌊-q⌋ else ⌊q⌋

def uint16OfRat (q : ℚ) : ℕ := (truncToZero q).toNat % 65536

/-- Source lines 142–143: `currentLSB := iMax / 32768; currentLSB *= 1000000`
— the ideal current LSB in micro-amperes. -/
def idealLSB_uA (iMax : ℚ) : ℚ := iMax / 32768 * 1000000

/-- Source lines 147–149: extract the decimal mantissa
`x / 10 ^ floor(log10 x)`, apply the ceiling, multiply the power of ten
back. -/
def approxLSB_uA (x : ℚ) : ℚ :=
  (⌈x / 10 ^ floorLog10 x⌉ : ℚ) * 10 ^ floorLog10 x

/-- Source line 150: the approximated LSB transformed back to amperes. -/
def finalLSB (iMax : ℚ) : ℚ := approxLSB_uA (idealLSB_uA iMax) / 1000000

/-- Source line 152: `calibrationValue := uint16(0.00512 / (currentLSB * rShunt))`. -/
def calibValue (rShunt iMax : ℚ) : ℕ :=
  uint16OfRat (0.00512 / (finalLSB iMax * rShunt))

/-- `Calibrate` (source lines 138–164): stores both parameters on the handle
first, then computes the calibration value and writes it to the calibration
register as [address byte, high byte, low byte]. -/
def Calibrate (ina : Ina226) (rShuntValue iMaxValue : ℚ) (b : Bus) :
    Except DriverErr Unit × Ina226 × Bus :=
  let ina1 : Ina226 := { ina with rShunt := rShuntValue, iMax := iMaxValue }
  match devWrite (CALIBRATION_REG :: wordToByteArray (calibValue ina1.rShunt ina1.iMax)) b with
  | (Except.error e, b1) => (Except.error e, ina1, b1)
  | (Except.ok _, b1) => (Except.ok (), ina1, b1)

/-- `Reset` (source lines 166–176): writes the RST bit word to the
configuration register. -/
def Reset (b : Bus) : Except DriverErr Unit × Bus :=
  match devWrite (CONFIG_REG :: wordToByteArray INA226_RST) b with
  | (Except.error e, b1) => (Except.error e, b1)
  | (Except.ok _, b1) => (Except.ok (), b1)

/-! ### Register read primitives (source lines 178–228) -/

/-- `readRegister16` (source lines 178–193): write the address-selector byte,
read two bytes, compose big-endian `buf[0] << 8 ||| buf[1]`. -/
def readRegister16 (reg : ℕ) (b : Bus) : Except DriverErr ℕ × Bus :=
  match devWrite [reg] b with
  | (Except.error e, b1) => (Except.error e, b1)
  | (Except.ok _, b1) =>
      match devRead 2 b1 with
      | (Except.error e, b2) => (Except.error e, b2)
      | (Except.ok buf, b2) =>
          (Except.ok (buf.getD 0 0 <<< 8 ||| buf.getD 1 0), b2)

/-- Source lines 195–201. -/
def readConfigurationRegister (b : Bus) : Except DriverErr ℕ × Bus :=
  match readRegister16 CONFIG_REG b with
  | (Except.error e, b1) => (Except.error e, b1)
  | (Except.ok confReg, b1) => (Except.ok confReg, b1)

/-- Source lines 203–209. -/
def readCalibrationRegister (b : Bus) : Except DriverErr ℕ × Bus :=
  match readRegister16 CALIBRATION_REG b with
  | (Except.error e, b1) => (Except.error e, b1)
  | (Except.ok calReg, b1) => (Except.ok calReg, b1)

/-- `CurrentResolution` (source lines 211–220): rejects `rShunt ≤ 0` before
any bus access, otherwise reads the calibration register and scales. -/
def CurrentResolution (ina : Ina226) (b : Bus) : Except DriverErr ℚ × Bus :=
  if ina.rShunt ≤ 0 then (Except.error DriverErr.notCalibrated, b)
  else
    match readCalibrationRegister b with
    | (Except.error e, b1) => (Except.error e, b1)
    | (Except.ok calibration, b1) =>
        (Except.ok (0.00512 / ((calibration : ℚ) * ina.rShunt)), b1)

/-- Source lines 222–228. -/
def ReadManufacturerRegister (b : Bus) : Except DriverErr ℕ × Bus :=
  match readRegister16 MANUFACTURERID_REG b with
  | (Except.error e, b1) => (Except.error e, b1)
  | (Except.ok confReg, b1) => (Except.ok confReg, b1)

/-- Go's `int16(v)` reinterpretation of a `uint16`: two's complement. -/
def toInt16 (v : ℕ) : ℤ := if v < 32768 then (v : ℤ) else (v : ℤ) - 65536

/-- `ReadBusVoltage` (source lines 230–236): unsigned, scaled by 1.25 mV. -/
def ReadBusVoltage (b : Bus) : Except DriverErr ℚ × Bus :=
  match readRegister16 BUSVOLTAGE_REG b with
  | (Except.error e, b1) => (Except.error e, b1)
  | (Except.ok voltage, b1) => (Except.ok ((voltage : ℚ) * 1.25), b1)

/-- `ReadShuntVoltage` (source lines 238–244): signed two's complement,
scaled by 0.0025 mV. -/
def ReadShuntVoltage (b : Bus) : Except DriverErr ℚ × Bus :=
  match readRegister16 SHUNTVOLTAGE_REG b with
  | (Except.error e, b1) => (Except.error e, b1)
  | (Except.ok voltage, b1) => (Except.ok ((toInt16 voltage : ℚ) * 0.0025), b1)

/-- `ReadShuntCurrentRegister` (source lines 246–252): raw signed register
count. -/
def ReadShuntCurrentRegister (b : Bus) : Except DriverErr ℤ × Bus :=
  match readRegister16 CURRENT_REG b with
  | (Except.error e, b1) => (Except.error e, b1)
  | (Except.ok currentRaw, b1) => (Except.ok (toInt16 currentRaw), b1)

/-- `ReadShuntCurrent` (source lines 254–266): read the raw current register
first, then obtain the current resolution, then scale. -/
def ReadShuntCurrent (ina : Ina226) (b : Bus) : Except DriverErr ℚ × Bus :=
  match ReadShuntCurrentRegister b with
  | (Except.error e, b1) => (Except.error e, b1)
  | (Except.ok currentRaw, b1) =>
      match CurrentResolution ina b1 with
      | (Except.error e, b2) => (Except.error e, b2)
      | (Except.ok currentResolution, b2) =>
          (Except.ok ((currentRaw : ℚ) * currentResolution), b2)

/-- The rounding function named by the specification: round to the NEAREST
unsigned 16-bit integer.  Stated from the spec's words, for comparison with
the source's `uint16(...)` conversion. -/
def roundToUint16 (q : ℚ) : ℕ := (round q).toNat % 65536

/-! ### Bitwise helper lemmas -/

theorem fieldBits_lor (s wd a c : ℕ) :
    fieldBits s wd (a ||| c) = fieldBits s wd a ||| fieldBits s wd c := by
  unfold fieldBits
  have h : (a ||| c) >>> s = a >>> s ||| c >>> s := by
    apply Nat.eq_of_testBit_eq
    intro i
    simp
  rw [h, Nat.and_distrib_right]

theorem fieldBits_zero (s wd : ℕ) : fieldBits s wd 0 = 0 := by
  simp [fieldBits]

/-- A bit-field projection of an OR-fold is the OR-fold of the projections. -/
theorem fieldBits_configWord (s wd : ℕ) (confs : List ℕ) :
    fieldBits s wd (configWord confs) = configWord (confs.map (fieldBits s wd)) := by
  unfold configWord
  suffices h : ∀ init : ℕ,
      fieldBits s wd (List.foldl (fun acc conf => acc ||| conf) init confs) =
        List.foldl (fun acc conf => acc ||| conf) (fieldBits s wd init)
          (confs.map (fieldBits s wd)) by
    simpa [fieldBits_zero] using h 0
  induction confs with
  | nil => intro init; simp
  | cons c cs ih => intro init; simp only [List.foldl, List.map]; rw [ih, fieldBits_lor]

/-- Big-endian composition of a shifted high byte with a low byte. -/
theorem shiftLeft_lor_eq_add (hi lo : ℕ) (hlo : lo < 256) :
    hi <<< 8 ||| lo = hi * 256 + lo := by
  apply Nat.eq_of_testBit_eq
  intro i
  rw [Nat.testBit_or, Nat.testBit_shiftLeft]
  have hlo2 : lo < 2 ^ 8 := by norm_num at hlo ⊢; exact hlo
  rw [show hi * 256 = 2 ^ 8 * hi by ring, Nat.testBit_mul_pow_two_add hi hlo2 i]
  by_cases h : i < 8
  · have h8 : ¬ (i ≥ 8) := by omega
    simp [h, h8]
  · have h8 : i ≥ 8 := by omega
    have hfalse : lo.testBit i = false :=
      Nat.testBit_lt_two_pow (lt_of_lt_of_le hlo2 (Nat.pow_le_pow_right (by norm_num) h8))
    simp [h, h8, hfalse]

/-- A 16-bit value split big-endian by the bus model recomposes to itself. -/
theorem recompose_bytes (v : ℕ) (hv : v < 65536) :
    (v >>> 8 % 256) <<< 8 ||| v % 256 % 256 = v := by
  have h1 : v >>> 8 < 256 := by
    rw [Nat.shiftRight_eq_div_pow]
    exact (Nat.div_lt_iff_lt_mul (by norm_num)).2 (by norm_num; omega)
  have h2 : v % 256 < 256 := Nat.mod_lt _ (by norm_num)
  rw [Nat.mod_eq_of_lt h1, Nat.mod_eq_of_lt h2, shiftLeft_lor_eq_add _ _ h2,
    Nat.shiftRight_eq_div_pow]
  norm_num
  omega

/-! ### Bus-trace helper lemmas -/

/-- `devWrite` always records the write in the log and consumes one scripted
response, whatever the response is. -/
theorem devWrite_trace (bytes : List ℕ) (b : Bus) :
    (devWrite bytes b).2.log = b.log ++ [BusOp.write bytes] ∧
    (devWrite bytes b).2.script = b.script.drop 1 := by
  rcases b with ⟨script, log⟩
  cases script with
  | nil => simp [devWrite]
  | cons r rest => cases r <;> simp [devWrite]

/-- `Calibrate` updates the handle's calibration state and issues exactly one
write of the calibration register address followed by the big-endian
calibration value, whatever the transport does. -/
theorem Calibrate_trace (ina : Ina226) (rS iM : ℚ) (b : Bus) :
    (Calibrate ina rS iM b).2.1 = { ina with rShunt := rS, iMax := iM } ∧
    (Calibrate ina rS iM b).2.2.log =
      b.log ++ [BusOp.write (CALIBRATION_REG :: wordToByteArray (calibValue rS iM))] ∧
    (Calibrate ina rS iM b).2.2.script = b.script.drop 1 := by
  rcases b with ⟨script, log⟩
  cases script with
  | nil => simp [Calibrate, devWrite]
  | cons r rest => cases r <;> simp [Calibrate, devWrite]

/-! ### Calibration arithmetic helper lemmas -/

/-- The decimal-order bracket `10 ^ e ≤ q < 10 ^ (e + 1)` for `e = floorLog10 q`. -/
theorem floorLog10_bracket {q : ℚ} (hq : 0 < q) :
    (10 : ℚ) ^ floorLog10 q ≤ q ∧ q < (10 : ℚ) ^ (floorLog10 q + 1) := by
  unfold floorLog10
  constructor
  · have h := Int.zpow_log_le_self (b := 10) (r := q) (by norm_num) hq
    simpa using h
  · have h := Int.lt_zpow_succ_log_self (b := 10) (r := q) (by norm_num)
    simpa using h

theorem zpow10_pos (e : ℤ) : (0 : ℚ) < 10 ^ e := by positivity

/-- The approximated LSB dominates its input. -/
theorem approxLSB_ge (x : ℚ) : x ≤ approxLSB_uA x := by
  unfold approxLSB_uA
  have hp := zpow10_pos (floorLog10 x)
  have hceil : x / 10 ^ floorLog10 x ≤ (⌈x / 10 ^ floorLog10 x⌉ : ℚ) := Int.le_ceil _
  calc x = x / 10 ^ floorLog10 x * 10 ^ floorLog10 x := by field_simp
    _ ≤ (⌈x / 10 ^ floorLog10 x⌉ : ℚ) * 10 ^ floorLog10 x := by
        exact mul_le_mul_of_nonneg_right hceil hp.le

/-- The ceiling of the decimal mantissa lies between 1 and 10. -/
theorem approxLSB_mantissa_bounds {x : ℚ} (hx : 0 < x) :
    1 ≤ ⌈x / 10 ^ floorLog10 x⌉ ∧ ⌈x / 10 ^ floorLog10 x⌉ ≤ 10 := by
  obtain ⟨hlo, hhi⟩ := floorLog10_bracket hx
  have hp := zpow10_pos (floorLog10 x)
  constructor
  · have h1 : (1 : ℚ) ≤ x / 10 ^ floorLog10 x := (one_le_div hp).2 hlo
    exact_mod_cast Int.ceil_le_ceil h1 |>.trans_eq' (by norm_num)
  · apply Int.ceil_le.2
    have h2 : x / 10 ^ floorLog10 x < 10 := by
      rw [div_lt_iff₀ hp]
      calc x < 10 ^ (floorLog10 x + 1) := hhi
        _ = 10 * 10 ^ floorLog10 x := by rw [zpow_add_one₀ (by norm_num : (10:ℚ) ≠ 0)]; ring
    push_cast
    linarith

/-- The approximated LSB is minimal among the integer multiples of
`10 ^ floorLog10 x` that dominate `x`. -/
theorem approxLSB_min (x : ℚ) (n : ℤ)
    (hn : x ≤ (n : ℚ) * 10 ^ floorLog10 x) :
    approxLSB_uA x ≤ (n : ℚ) * 10 ^ floorLog10 x := by
  unfold approxLSB_uA
  have hp := zpow10_pos (floorLog10 x)
  have hm : x / 10 ^ floorLog10 x ≤ (n : ℚ) := (div_le_iff₀ hp).2 hn
  have hceil : ⌈x / 10 ^ floorLog10 x⌉ ≤ n := Int.ceil_le.2 hm
  exact mul_le_mul_of_nonneg_right (by exact_mod_cast hceil) hp.le

/-- The approximated LSB of a positive input is positive. -/
theorem approxLSB_pos {x : ℚ} (hx : 0 < x) : 0 < approxLSB_uA x :=
  hx.trans_le (approxLSB_ge x)

theorem idealLSB_pos {iMax : ℚ} (h : 0 < iMax) : 0 < idealLSB_uA iMax := by
  unfold idealLSB_uA; positivity

theorem finalLSB_pos {iMax : ℚ} (h : 0 < iMax) : 0 < finalLSB iMax := by
  unfold finalLSB
  have := approxLSB_pos (idealLSB_pos h)
  positivity

/-! ### Concrete evaluations of the calibration pipeline -/

theorem floorLog10_eq_one {q : ℚ} (h1 : 10 ≤ q) (h2 : q < 100) : floorLog10 q = 1 := by
  unfold floorLog10
  rw [Int.log_of_one_le_right _ (by linarith)]
  have hq : (0 : ℚ) ≤ q := by linarith
  have hfl : 10 ≤ ⌊q⌋₊ := Nat.le_floor (by exact_mod_cast h1)
  have hfu : ⌊q⌋₊ < 100 := by
    rw [Nat.floor_lt hq]; exact_mod_cast h2
  have hlog : Nat.log 10 ⌊q⌋₊ = 1 :=
    Nat.log_eq_of_pow_le_of_lt_pow (by simpa using hfl) (by simpa using hfu)
  simp [hlog]

theorem idealLSB_uA_half : idealLSB_uA 0.5 = 15625 / 1024 := by
  norm_num [idealLSB_uA]

theorem approxLSB_uA_half : approxLSB_uA (15625 / 1024) = 20 := by
  unfold approxLSB_uA
  rw [floorLog10_eq_one (by norm_num) (by norm_num)]
  have hc : ⌈(15625 / 1024 : ℚ) / 10 ^ (1 : ℤ)⌉ = 2 := by
    rw [Int.ceil_eq_iff]
    norm_num
  rw [hc]
  norm_num

theorem finalLSB_half : finalLSB 0.5 = 0.00002 := by
  unfold finalLSB
  rw [idealLSB_uA_half, approxLSB_uA_half]
  norm_num

theorem floor_25600 : (⌊(25600 : ℚ)⌋ : ℤ) = 25600 := by
  rw [show ((25600 : ℚ)) = ((25600 : ℤ) : ℚ) by norm_num, Int.floor_intCast]

theorem calibValue_example : calibValue 0.01 0.5 = 25600 := by
  unfold calibValue
  rw [finalLSB_half,
    show (0.00512 : ℚ) / ((0.00002 : ℚ) * 0.01) = 25600 by norm_num]
  unfold uint16OfRat truncToZero
  rw [if_neg (by norm_num), floor_25600]
  rfl

theorem calibValue_160 : calibValue 160 0.5 = 1 := by
  unfold calibValue
  rw [finalLSB_half,
    show (0.00512 : ℚ) / ((0.00002 : ℚ) * 160) = 8 / 5 by norm_num]
  unfold uint16OfRat truncToZero
  rw [if_neg (by norm_num), show (⌊(8 / 5 : ℚ)⌋ : ℤ) = 1 by
    rw [Int.floor_eq_iff] <;> norm_num]
  rfl

theorem roundToUint16_eight_fifths : roundToUint16 (8 / 5) = 2 := by
  unfold roundToUint16
  rw [round_eq, show (8 / 5 : ℚ) + 1 / 2 = 21 / 10 by norm_num,
    show (⌊(21 / 10 : ℚ)⌋ : ℤ) = 2 by rw [Int.floor_eq_iff] <;> norm_num]
  rfl

theorem idealLSB_uA_95 : idealLSB_uA 3.11296 = 95 := by
  norm_num [idealLSB_uA]

theorem approxLSB_uA_95 : approxLSB_uA 95 = 100 := by
  unfold approxLSB_uA
  rw [floorLog10_eq_one (by norm_num) (by norm_num)]
  have hc : ⌈(95 : ℚ) / 10 ^ (1 : ℤ)⌉ = 10 := by
    rw [Int.ceil_eq_iff]
    norm_num
  rw [hc]
  norm_num

/-! ### Claim theorems -/

/-- C1: for `Calibrate(rShunt = 0.01, iMax = 0.5)` the current-LSB
approximation yields 20 µA, i.e. 0.00002 A, the computed calibration value is
exactly 25600, and the bytes put on the bus are the calibration-register
address byte followed by the high and the low byte of 25600. -/
theorem calibrate_example_writes_25600 :
    approxLSB_uA (idealLSB_uA 0.5) = 20 ∧
    finalLSB 0.5 = 0.00002 ∧
    calibValue 0.01 0.5 = 25600 ∧
    wordToByteArray 25600 = [100, 0] ∧
    (Calibrate New 0.01 0.5 ⟨[BusResp.ok []], []⟩).2.2.log =
      [BusOp.write (CALIBRATION_REG :: wordToByteArray 25600)] ∧
    (Calibrate New 0.01 0.5 ⟨[BusResp.ok []], []⟩).1 = Except.ok () := by
  refine ⟨?_, finalLSB_half, calibValue_example, by decide, ?_, ?_⟩
  · rw [idealLSB_uA_half]; exact approxLSB_uA_half
  · rw [(Calibrate_trace New 0.01 0.5 ⟨[BusResp.ok []], []⟩).2.1, calibValue_example]
    rfl
  · simp [Calibrate, devWrite]

/-- C2 counterexample: with `rShunt = 160 Ω` and `iMax = 0.5 A` the quotient
`0.00512 / (finalLSB * rShunt)` is 1.6; the code writes the truncation 1,
while rounding to the nearest unsigned 16-bit integer would give 2.  The
value written is therefore not `round_to_uint16` of the quotient. -/
theorem calibValue_not_round_to_nearest :
    (0.00512 : ℚ) / (finalLSB 0.5 * 160) = 8 / 5 ∧
    calibValue 160 0.5 = 1 ∧
    roundToUint16 ((0.00512 : ℚ) / (finalLSB 0.5 * 160)) = 2 ∧
    (Calibrate New 160 0.5 ⟨[BusResp.ok []], []⟩).2.2.log =
      [BusOp.write [CALIBRATION_REG, 0, 1]] ∧
    calibValue 160 0.5 ≠ roundToUint16 ((0.00512 : ℚ) / (finalLSB 0.5 * 160)) := by
  have hq : (0.00512 : ℚ) / (finalLSB 0.5 * 160) = 8 / 5 := by
    rw [finalLSB_half]; norm_num
  refine ⟨hq, calibValue_160, ?_, ?_, ?_⟩
  · rw [hq]; exact roundToUint16_eight_fifths
  · rw [(Calibrate_trace New 160 0.5 ⟨[BusResp.ok []], []⟩).2.1, calibValue_160]
    rfl
  · rw [hq, calibValue_160, roundToUint16_eight_fifths]
    decide

/-- C2 amended: the value written to the calibration register is the
truncation TOWARD ZERO (not the rounding to nearest) of
`0.00512 / (finalLSB * shuntResistance)`, for every pair of positive
parameters whose quotient lies below 2^16 (out of that range Go's
float-to-uint16 conversion is implementation-defined). -/
theorem calibrate_writes_truncated_quotient (rShunt iMax : ℚ) (h1 : 0 < rShunt)
    (h2 : 0 < iMax) (hrange : 0.00512 / (finalLSB iMax * rShunt) < 65536)
    (ina : Ina226) (b : Bus) :
    calibValue rShunt iMax = (⌊0.00512 / (finalLSB iMax * rShunt)⌋).toNat ∧
    (Calibrate ina rShunt iMax b).2.2.log = b.log ++
      [BusOp.write (CALIBRATION_REG ::
        wordToByteArray (⌊0.00512 / (finalLSB iMax * rShunt)⌋).toNat)] := by
  have hfin := finalLSB_pos h2
  have hqnn : (0 : ℚ) ≤ 0.00512 / (finalLSB iMax * rShunt) := by positivity
  have hcv : calibValue rShunt iMax = (⌊0.00512 / (finalLSB iMax * rShunt)⌋).toNat := by
    unfold calibValue uint16OfRat truncToZero
    rw [if_neg (not_lt.2 hqnn)]
    have hflt : ⌊0.00512 / (finalLSB iMax * rShunt)⌋ < 65536 := Int.floor_lt.2 (by
      exact_mod_cast hrange)
    have htn : (⌊0.00512 / (finalLSB iMax * rShunt)⌋).toNat < 65536 := by omega
    exact Nat.mod_eq_of_lt htn
  refine ⟨hcv, ?_⟩
  rw [(Calibrate_trace ina rShunt iMax b).2.1, hcv]

/-- Witness for the C2 amended theorem at `rShunt = 0.01`, `iMax = 0.5`. -/
theorem calibrate_writes_truncated_quotient_witness :
    (0 : ℚ) < 0.01 ∧ (0 : ℚ) < 0.5 ∧
    (0.00512 : ℚ) / (finalLSB 0.5 * 0.01) < 65536 ∧
    calibValue 0.01 0.5 = (⌊(0.00512 : ℚ) / (finalLSB 0.5 * 0.01)⌋).toNat :=
  ⟨by norm_num, by norm_num, by rw [finalLSB_half]; norm_num,
    (calibrate_writes_truncated_quotient 0.01 0.5 (by norm_num) (by norm_num)
      (by rw [finalLSB_half]; norm_num) New ⟨[], []⟩).1⟩

/-- C3 counterexample: at `iMax = 3.11296 A` the ideal LSB is exactly 95 µA,
its decimal order is 10^1, and the approximation step produces 100 µA — which
is NOT of the form `d * 10^1` for a single mantissa digit `d ≤ 9`; indeed no
single-digit multiple of 10^1 is ≥ 95 at all. -/
theorem approxLSB_digit_overflow :
    idealLSB_uA 3.11296 = 95 ∧
    floorLog10 (95 : ℚ) = 1 ∧
    approxLSB_uA 95 = 100 ∧
    ¬ (∃ d : ℕ, 1 ≤ d ∧ d ≤ 9 ∧ approxLSB_uA 95 = (d : ℚ) * 10 ^ (1 : ℤ)) ∧
    ¬ (∃ d : ℕ, d ≤ 9 ∧ (95 : ℚ) ≤ (d : ℚ) * 10 ^ (1 : ℤ)) := by
  refine ⟨idealLSB_uA_95, floorLog10_eq_one (by norm_num) (by norm_num),
    approxLSB_uA_95, ?_, ?_⟩
  · rintro ⟨d, -, hd9, heq⟩
    rw [approxLSB_uA_95] at heq
    have hdq : (d : ℚ) ≤ 9 := by exact_mod_cast hd9
    rw [zpow_one] at heq
    linarith
  · rintro ⟨d, hd9, hge⟩
    have hdq : (d : ℚ) ≤ 9 := by exact_mod_cast hd9
    rw [zpow_one] at hge
    linarith

/-- C3 amended: for every `iMax > 0`, the approximation step produces the
smallest INTEGER multiple of `10 ^ k` (k the decimal order of the ideal LSB)
that is ≥ the ideal LSB; the multiplier is an integer `d` with `1 ≤ d ≤ 10`
(it equals 10 when the mantissa exceeds 9, so it need not be a single decimal
digit). -/
theorem approxLSB_least_dominating_multiple (iMax : ℚ) (h : 0 < iMax) :
    idealLSB_uA iMax ≤ approxLSB_uA (idealLSB_uA iMax) ∧
    (∃ d : ℤ, 1 ≤ d ∧ d ≤ 10 ∧
      approxLSB_uA (idealLSB_uA iMax) =
        (d : ℚ) * 10 ^ floorLog10 (idealLSB_uA iMax)) ∧
    (∀ n : ℤ, idealLSB_uA iMax ≤ (n : ℚ) * 10 ^ floorLog10 (idealLSB_uA iMax) →
      approxLSB_uA (idealLSB_uA iMax) ≤
        (n : ℚ) * 10 ^ floorLog10 (idealLSB_uA iMax)) := by
  have hx := idealLSB_pos h
  obtain ⟨hd1, hd10⟩ := approxLSB_mantissa_bounds hx
  exact ⟨approxLSB_ge _,
    ⟨⌈idealLSB_uA iMax / 10 ^ floorLog10 (idealLSB_uA iMax)⌉, hd1, hd10, rfl⟩,
    fun n hn => approxLSB_min _ n hn⟩

/-- Witness for the C3 amended theorem at `iMax = 0.5`. -/
theorem approxLSB_least_dominating_multiple_witness :
    (0 : ℚ) < 0.5 ∧ idealLSB_uA 0.5 ≤ approxLSB_uA (idealLSB_uA 0.5) :=
  ⟨by norm_num, (approxLSB_least_dominating_multiple 0.5 (by norm_num)).1⟩

/-! ### Configure and Reset helpers -/

theorem Configure_trace (confs : List ℕ) (b : Bus) :
    (Configure confs b).2.log =
      b.log ++ [BusOp.write (CONFIG_REG :: wordToByteArray (configWord confs))] ∧
    (Configure confs b).2.script = b.script.drop 1 := by
  rcases b with ⟨script, log⟩
  cases script with
  | nil => simp [Configure, devWrite]
  | cons r rest => cases r <;> simp [Configure, devWrite]

theorem Reset_trace (b : Bus) :
    (Reset b).2.log = b.log ++ [BusOp.write (CONFIG_REG :: wordToByteArray INA226_RST)] ∧
    (Reset b).2.script = b.script.drop 1 := by
  rcases b with ⟨script, log⟩
  cases script with
  | nil => simp [Reset, devWrite]
  | cons r rest => cases r <;> simp [Reset, devWrite]

theorem supportedConsts_lt : ∀ c ∈ supportedConsts, c < 2 ^ 16 := by decide

theorem foldl_lor_lt : ∀ confs : List ℕ, (∀ c ∈ confs, c < 2 ^ 16) →
    ∀ init : ℕ, init < 2 ^ 16 →
      List.foldl (fun acc conf => acc ||| conf) init confs < 2 ^ 16 := by
  intro confs
  induction confs with
  | nil => intro _ init hi; simpa using hi
  | cons c cs ih =>
    intro h init hi
    simp only [List.foldl]
    exact ih (fun x hx => h x (List.mem_cons_of_mem _ hx)) _
      (Nat.or_lt_two_pow hi (h c (List.mem_cons_self _ _)))

theorem configWord_lt (confs : List ℕ) (h : ∀ c ∈ confs, c ∈ supportedConsts) :
    configWord confs < 2 ^ 16 :=
  foldl_lor_lt confs (fun c hc => supportedConsts_lt c (h c hc)) 0 (by norm_num)

/-- No supported option constant touches the reset bit. -/
theorem supported_rst_zero : ∀ c ∈ supportedConsts, fieldBits 15 1 c = 0 := by decide

theorem configWord_zeros {l : List ℕ} (h : ∀ c ∈ l, c = 0) : configWord l = 0 := by
  unfold configWord
  induction l with
  | nil => rfl
  | cons c cs ih =>
    simp only [List.foldl]
    rw [h c (List.mem_cons_self _ _), Nat.zero_or]
    exact ih fun x hx => h x (List.mem_cons_of_mem _ hx)

/-! ### C4 and C5 -/

/-- C4 counterexample: supplying the two mode constants `SHUNT_TRIG` (0x01)
and `BUS_TRIG` (0x02) produces a configuration word whose MODE field is their
bitwise OR, 3, not the bits 2 of the last-supplied constant. -/
theorem configure_two_modes_ors :
    (Configure [INA226_MODE_SHUNT_TRIG, INA226_MODE_BUS_TRIG]
        ⟨[BusResp.ok []], []⟩).2.log = [BusOp.write [CONFIG_REG, 0, 3]] ∧
    modeBits (configWord [INA226_MODE_SHUNT_TRIG, INA226_MODE_BUS_TRIG]) = 3 ∧
    modeBits INA226_MODE_BUS_TRIG = 2 ∧
    modeBits (configWord [INA226_MODE_SHUNT_TRIG, INA226_MODE_BUS_TRIG]) ≠
      modeBits INA226_MODE_BUS_TRIG := by
  decide

/-- C4 amended: for every list of supported operating-mode, conversion-time
and averaging constants, `Configure` writes
[config-register address byte, high byte, low byte] of a 16-bit word in which
each field equals the bitwise OR of the field bits of ALL supplied constants
(hence the single supplied constant when at most one constant addresses the
field, and 0 when none does); the reset bit is never set. -/
theorem configure_fields_are_or_of_supplied (confs : List ℕ)
    (h : ∀ c ∈ confs, c ∈ supportedConsts) (b : Bus) :
    (Configure confs b).2.log = b.log ++
      [BusOp.write [CONFIG_REG, configWord confs >>> 8 % 256, configWord confs % 256]] ∧
    configWord confs < 2 ^ 16 ∧
    modeBits (configWord confs) = configWord (confs.map modeBits) ∧
    vshctBits (configWord confs) = configWord (confs.map vshctBits) ∧
    vbusctBits (configWord confs) = configWord (confs.map vbusctBits) ∧
    avgBits (configWord confs) = configWord (confs.map avgBits) ∧
    ((∀ c ∈ confs, modeBits c = 0) → modeBits (configWord confs) = 0) ∧
    ((∀ c ∈ confs, vshctBits c = 0) → vshctBits (configWord confs) = 0) ∧
    ((∀ c ∈ confs, vbusctBits c = 0) → vbusctBits (configWord confs) = 0) ∧
    ((∀ c ∈ confs, avgBits c = 0) → avgBits (configWord confs) = 0) ∧
    rstBits (configWord confs) = 0 := by
  have hw := configWord_lt confs h
  refine ⟨(Configure_trace confs b).1, hw,
    fieldBits_configWord 0 3 confs, fieldBits_configWord 3 3 confs,
    fieldBits_configWord 6 3 confs, fieldBits_configWord 9 3 confs,
    ?_, ?_, ?_, ?_, ?_⟩
  · intro h0
    rw [show modeBits (configWord confs) = fieldBits 0 3 (configWord confs) from rfl,
      fieldBits_configWord 0 3 confs]
    exact configWord_zeros (by
      intro x hx
      obtain ⟨c, hc, rfl⟩ := List.mem_map.1 hx
      exact h0 c hc)
  · intro h0
    rw [show vshctBits (configWord confs) = fieldBits 3 3 (configWord confs) from rfl,
      fieldBits_configWord 3 3 confs]
    exact configWord_zeros (by
      intro x hx
      obtain ⟨c, hc, rfl⟩ := List.mem_map.1 hx
      exact h0 c hc)
  · intro h0
    rw [show vbusctBits (configWord confs) = fieldBits 6 3 (configWord confs) from rfl,
      fieldBits_configWord 6 3 confs]
    exact configWord_zeros (by
      intro x hx
      obtain ⟨c, hc, rfl⟩ := List.mem_map.1 hx
      exact h0 c hc)
  · intro h0
    rw [show avgBits (configWord confs) = fieldBits 9 3 (configWord confs) from rfl,
      fieldBits_configWord 9 3 confs]
    exact configWord_zeros (by
      intro x hx
      obtain ⟨c, hc, rfl⟩ := List.mem_map.1 hx
      exact h0 c hc)
  · rw [show rstBits (configWord confs) = fieldBits 15 1 (configWord confs) from rfl,
      fieldBits_configWord 15 1 confs]
    exact configWord_zeros (by
      intro x hx
      obtain ⟨c, hc, rfl⟩ := List.mem_map.1 hx
      exact supported_rst_zero c (h c hc))

/-- Witness for the C4 amended theorem: the spec's end-to-end configuration
list, one constant per field. -/
theorem configure_fields_are_or_of_supplied_witness :
    (∀ c ∈ [INA226_SHUNT_CONV_TIME_1100US, INA226_BUS_CONV_TIME_1100US,
        INA226_AVERAGES_1, INA226_MODE_SHUNT_BUS_CONT], c ∈ supportedConsts) ∧
    modeBits (configWord [INA226_SHUNT_CONV_TIME_1100US, INA226_BUS_CONV_TIME_1100US,
        INA226_AVERAGES_1, INA226_MODE_SHUNT_BUS_CONT]) =
      configWord ([INA226_SHUNT_CONV_TIME_1100US, INA226_BUS_CONV_TIME_1100US,
        INA226_AVERAGES_1, INA226_MODE_SHUNT_BUS_CONT].map modeBits) :=
  ⟨by decide,
    (configure_fields_are_or_of_supplied
      [INA226_SHUNT_CONV_TIME_1100US, INA226_BUS_CONV_TIME_1100US,
        INA226_AVERAGES_1, INA226_MODE_SHUNT_BUS_CONT] (by decide)
      ⟨[], []⟩).2.2.1⟩

/-- C5: `Reset` always puts exactly the bytes
[config-register address, 0x80, 0x00] on the bus — the written word has bit
15 set and every other bit clear — whatever the prior configuration or
transport state; it issues no read (its single bus operation is that
write). -/
theorem reset_writes_rst_bit_only (b : Bus) :
    (Reset b).2.log = b.log ++ [BusOp.write [CONFIG_REG, 0x80, 0x00]] ∧
    (Reset b).2.script = b.script.drop 1 ∧
    INA226_RST = 2 ^ 15 ∧
    wordToByteArray INA226_RST = [0x80, 0x00] ∧
    (∀ i : ℕ, INA226_RST.testBit i = decide (i = 15)) := by
  refine ⟨(Reset_trace b).1, (Reset_trace b).2, by decide, by decide, ?_⟩
  intro i
  rw [show INA226_RST = 2 ^ 15 by decide, Nat.testBit_two_pow]
  simp [eq_comm]

/-! ### Register-read helper -/

/-- A successful two-phase register access delivering the 16-bit value `v`
as big-endian bytes: the driver recomposes exactly `v` and logs the
address-select write followed by the 2-byte read. -/
theorem readRegister16_ok (reg v : ℕ) (hv : v < 65536) (rest : List BusResp)
    (log : List BusOp) :
    readRegister16 reg ⟨BusResp.ok [] :: BusResp.ok [v >>> 8, v % 256] :: rest, log⟩ =
      (Except.ok v, ⟨rest, log ++ [BusOp.write [reg], BusOp.read 2]⟩) := by
  simp [readRegister16, devWrite, devRead]
  simpa using recompose_bytes v hv

/-! ### C6 — shunt voltage interpretation -/

/-- C6: `ReadShuntVoltage` interprets the raw register value as signed
two's complement and multiplies by 0.0025: delivered raw value `v` yields
`toInt16 v * 0.0025`; in particular 0x8000 yields -81.92 and 100 yields
0.25. -/
theorem readShuntVoltage_twos_complement (v : ℕ) (hv : v < 65536)
    (rest : List BusResp) (log : List BusOp) :
    (ReadShuntVoltage ⟨BusResp.ok [] :: BusResp.ok [v >>> 8, v % 256] :: rest, log⟩).1 =
      Except.ok ((toInt16 v : ℚ) * 0.0025) ∧
    (toInt16 0x8000 : ℚ) * 0.0025 = -81.92 ∧
    (toInt16 100 : ℚ) * 0.0025 = 0.25 := by
  refine ⟨?_, by norm_num [toInt16], by norm_num [toInt16]⟩
  rw [ReadShuntVoltage, readRegister16_ok SHUNTVOLTAGE_REG v hv rest log]

/-- Witness for C6 at the most negative raw value 0x8000. -/
theorem readShuntVoltage_twos_complement_witness :
    (0x8000 : ℕ) < 65536 ∧
    (ReadShuntVoltage ⟨[BusResp.ok [], BusResp.ok [0x8000 >>> 8, 0x8000 % 256]], []⟩).1 =
      Except.ok ((toInt16 0x8000 : ℚ) * 0.0025) :=
  ⟨by norm_num, (readShuntVoltage_twos_complement 0x8000 (by norm_num) [] []).1⟩

/-! ### C7 — current resolution requires calibration -/

/-- C7: whenever the stored `rShunt` is ≤ 0, `CurrentResolution` returns the
not-calibrated error without touching the bus at all — for every transport
state and hence every calibration-register content — and substitutes no
default; when `rShunt > 0` and the register read succeeds with value `v` it
returns `0.00512 / (v * rShunt)`. -/
theorem currentResolution_requires_calibration (ina : Ina226) :
    (∀ b : Bus, ina.rShunt ≤ 0 →
      CurrentResolution ina b = (Except.error DriverErr.notCalibrated, b)) ∧
    (∀ v : ℕ, v < 65536 → 0 < ina.rShunt → ∀ rest log,
      (CurrentResolution ina
          ⟨BusResp.ok [] :: BusResp.ok [v >>> 8, v % 256] :: rest, log⟩).1 =
        Except.ok (0.00512 / ((v : ℚ) * ina.rShunt))) := by
  constructor
  · intro b hle
    rw [CurrentResolution, if_pos hle]
  · intro v hv hr rest log
    rw [CurrentResolution, if_neg (not_le.2 hr), readCalibrationRegister,
      readRegister16_ok CALIBRATION_REG v hv rest log]

/-- Witness for C7: an uncalibrated handle fails on any bus; a calibrated
handle reading 25600 returns the scaled resolution. -/
theorem currentResolution_requires_calibration_witness :
    New.rShunt ≤ 0 ∧
    CurrentResolution New ⟨[], []⟩ = (Except.error DriverErr.notCalibrated, ⟨[], []⟩) ∧
    (0 : ℚ) < (⟨0.01, 0.5, 0, 0⟩ : Ina226).rShunt ∧
    (CurrentResolution ⟨0.01, 0.5, 0, 0⟩
        ⟨[BusResp.ok [], BusResp.ok [25600 >>> 8, 25600 % 256]], []⟩).1 =
      Except.ok (0.00512 / ((25600 : ℚ) * (⟨0.01, 0.5, 0, 0⟩ : Ina226).rShunt)) :=
  ⟨le_refl 0,
    (currentResolution_requires_calibration New).1 ⟨[], []⟩ (le_refl 0),
    by norm_num,
    (currentResolution_requires_calibration ⟨0.01, 0.5, 0, 0⟩).2 25600 (by norm_num)
      (by norm_num) [] []⟩

/-! ### C8 — calibrate stores parameters before the write -/

/-- C8: `Calibrate` stores `rShunt` and `iMax` on the handle for every pair
of parameters and every transport behaviour; in particular when the
transport write fails the transport error is returned AND the stored
calibration state is still the new pair. -/
theorem calibrate_stores_params_unconditionally (ina : Ina226) (rS iM : ℚ) (b : Bus) :
    (Calibrate ina rS iM b).2.1.rShunt = rS ∧
    (Calibrate ina rS iM b).2.1.iMax = iM ∧
    (b.script.head? = some BusResp.err →
      (Calibrate ina rS iM b).1 = Except.error DriverErr.transport) := by
  have ht := (Calibrate_trace ina rS iM b).1
  refine ⟨by rw [ht], by rw [ht], ?_⟩
  intro hh
  rcases b with ⟨script, log⟩
  cases script with
  | nil => simp at hh
  | cons r rest =>
    simp at hh
    subst hh
    simp [Calibrate, devWrite]

/-- Witness for C8 with a failing transport. -/
theorem calibrate_stores_params_unconditionally_witness :
    (Calibrate New 0.01 0.5 ⟨[BusResp.err], []⟩).2.1.rShunt = 0.01 ∧
    (Calibrate New 0.01 0.5 ⟨[BusResp.err], []⟩).2.1.iMax = 0.5 ∧
    (Calibrate New 0.01 0.5 ⟨[BusResp.err], []⟩).1 = Except.error DriverErr.transport :=
  ⟨(calibrate_stores_params_unconditionally New 0.01 0.5 ⟨[BusResp.err], []⟩).1,
    (calibrate_stores_params_unconditionally New 0.01 0.5 ⟨[BusResp.err], []⟩).2.1,
    (calibrate_stores_params_unconditionally New 0.01 0.5 ⟨[BusResp.err], []⟩).2.2 rfl⟩

/-! ### C9 — read order in ReadShuntCurrent -/

/-- C9: on an uncalibrated handle (`rShunt ≤ 0`) `ReadShuntCurrent` still
issues the current-register bus transaction first: if the address-select
write or the data read fails, the transport error is returned (not the
not-calibrated error) with the attempted operations logged; the
not-calibrated error is returned only after the current-register read
succeeded, with no further bus operation issued. -/
theorem readShuntCurrent_bus_before_calibration_check (ina : Ina226)
    (hr : ina.rShunt ≤ 0) :
    (∀ rest log,
      (ReadShuntCurrent ina ⟨BusResp.err :: rest, log⟩).1 =
        Except.error DriverErr.transport ∧
      (ReadShuntCurrent ina ⟨BusResp.err :: rest, log⟩).2.log =
        log ++ [BusOp.write [CURRENT_REG]]) ∧
    (∀ rest log,
      (ReadShuntCurrent ina ⟨BusResp.ok [] :: BusResp.err :: rest, log⟩).1 =
        Except.error DriverErr.transport ∧
      (ReadShuntCurrent ina ⟨BusResp.ok [] :: BusResp.err :: rest, log⟩).2.log =
        log ++ [BusOp.write [CURRENT_REG], BusOp.read 2]) ∧
    (∀ data rest log,
      (ReadShuntCurrent ina ⟨BusResp.ok [] :: BusResp.ok data :: rest, log⟩).1 =
        Except.error DriverErr.notCalibrated ∧
      (ReadShuntCurrent ina ⟨BusResp.ok [] :: BusResp.ok data :: rest, log⟩).2.log =
        log ++ [BusOp.write [CURRENT_REG], BusOp.read 2]) := by
  refine ⟨fun rest log => ?_, fun rest log => ?_, fun data rest log => ?_⟩
  · constructor <;>
      simp [ReadShuntCurrent, ReadShuntCurrentRegister, readRegister16, devWrite]
  · constructor <;>
      simp [ReadShuntCurrent, ReadShuntCurrentRegister, readRegister16, devWrite, devRead]
  · constructor <;>
      simp [ReadShuntCurrent, ReadShuntCurrentRegister, readRegister16, devWrite,
        devRead, CurrentResolution, if_pos hr]

/-- Witness for C9 on a fresh (uncalibrated) handle. -/
theorem readShuntCurrent_bus_before_calibration_check_witness :
    New.rShunt ≤ 0 ∧
    (ReadShuntCurrent New ⟨[BusResp.err], []⟩).1 = Except.error DriverErr.transport ∧
    (ReadShuntCurrent New ⟨[BusResp.ok [], BusResp.ok [0, 100]], []⟩).1 =
      Except.error DriverErr.notCalibrated :=
  ⟨le_refl 0,
    ((readShuntCurrent_bus_before_calibration_check New (le_refl 0)).1 [] []).1,
    ((readShuntCurrent_bus_before_calibration_check New (le_refl 0)).2.2 [0, 100] [] []).1⟩

/-! ### C10 — calibrate validates nothing -/

/-- C10: `Calibrate` never returns a validation error for any pair of
parameters (including non-positive ones): its only error is the propagated
transport failure, the computed calibration value is always a 16-bit
quantity, the write of [calibration-register address, high byte, low byte]
is always issued, and whenever the transport write succeeds the call
returns ok. -/
theorem calibrate_performs_no_validation (ina : Ina226) (rS iM : ℚ) (b : Bus) :
    (Calibrate ina rS iM b).1 ≠ Except.error DriverErr.notCalibrated ∧
    calibValue rS iM < 65536 ∧
    (Calibrate ina rS iM b).2.2.log = b.log ++
      [BusOp.write [CALIBRATION_REG, calibValue rS iM >>> 8 % 256, calibValue rS iM % 256]] ∧
    ((∃ bytes, b.script.head? = some (BusResp.ok bytes)) →
      (Calibrate ina rS iM b).1 = Except.ok ()) := by
  refine ⟨?_, by unfold calibValue uint16OfRat; exact Nat.mod_lt _ (by norm_num),
    (Calibrate_trace ina rS iM b).2.1, ?_⟩
  · rcases b with ⟨script, log⟩
    cases script with
    | nil => simp [Calibrate, devWrite]
    | cons r rest => cases r <;> simp [Calibrate, devWrite]
  · rintro ⟨bytes, hh⟩
    rcases b with ⟨script, log⟩
    cases script with
    | nil => simp at hh
    | cons r rest =>
      simp at hh
      subst hh
      simp [Calibrate, devWrite]

/-- Witness for C10 at non-positive parameters and a succeeding transport. -/
theorem calibrate_performs_no_validation_witness :
    (Calibrate New 0 (-1) ⟨[BusResp.ok []], []⟩).1 ≠
      Except.error DriverErr.notCalibrated ∧
    (Calibrate New 0 (-1) ⟨[BusResp.ok []], []⟩).1 = Except.ok () :=
  ⟨(calibrate_performs_no_validation New 0 (-1) ⟨[BusResp.ok []], []⟩).1,
    (calibrate_performs_no_validation New 0 (-1) ⟨[BusResp.ok []], []⟩).2.2.2
      ⟨[], rfl⟩⟩

end INA226
